import Mathlib

/-!
Verification of the Price Composition & Cheap-Period Analysis Engine of the
`real_electricity_price` Home Assistant integration.

The development shallowly embeds the relevant Python code:

* `custom_components/real_electricity_price/api.py`
  (`_modify_prices`, `_create_placeholder_day_data`),
* `custom_components/real_electricity_price/sensors/current_price.py`
  (`_get_current_tariff_value`),
* `custom_components/real_electricity_price/cheap_hours_coordinator.py` and
  `custom_components/real_electricity_price/cheap_price_coordinator.py`
  (`_analyze_cheap_prices`, `_group_consecutive_hours`).

Modelling conventions:

* Python floats are modelled as rationals (`ℚ`);
* UTC instants are modelled as integer minutes, calendar dates as integer
  day numbers (day `d` starts at minute `1440 * d`); `date.weekday()` is
  `(d + 3) % 7` since day 0 (1970-01-01) was a Thursday;
* `datetime.astimezone(tz).hour` is a caller-supplied function
  `localHourAt : ℤ → ℤ` (time-zone conversion is a library boundary);
* the `holidays.country_holidays` library call, which may raise, is a
  caller-supplied `Except Unit (ℤ → Bool)` (`.error` models the raise);
* Python `round(x, n)` is round-half-to-even at `n` decimal digits;
* fallible code is embedded in `Except PErr`.
-/

/-- Python-style exception kinds that the embedded code can raise. -/
inductive PErr where
  | holidayLookup
  | nameError
  | typeError
  | keyError
  | attributeError
  | indexError
  | valueError
  deriving DecidableEq, Repr

/-- Round a rational to the nearest integer, ties to even (Python `round`). -/
def roundHalfEven (x : ℚ) : ℤ :=
  let f : ℤ := ⌊x⌋
  let r : ℚ := x - (f : ℚ)
  if r < 1 / 2 then f
  else if 1 / 2 < r then f + 1
  else if f % 2 = 0 then f else f + 1

/-- Python `round(x, n)` on the idealized (rational) value. -/
def pyRound (x : ℚ) (n : ℕ) : ℚ :=
  (roundHalfEven (x * 10 ^ n) : ℚ) / 10 ^ n

/-- `const.py`: `PRICE_DECIMAL_PRECISION = 6`. -/
def PRICE_DECIMAL_PRECISION : ℕ := 6

/-- The per-component VAT step of `_modify_prices`:
`comp = x; if flag: comp *= 1 + vat_pct / 100`. -/
def applyVat (x : ℚ) (flag : Bool) (vat_pct : ℚ) : ℚ :=
  if flag then x * (1 + vat_pct / 100) else x

/-- `date.weekday()` for day number `d` (Monday = 0). -/
def weekdayOf (d : ℤ) : ℤ := (d + 3) % 7

/-- Configuration snapshot read at the top of `_modify_prices` /
`_create_placeholder_day_data` (field names follow the Python locals). -/
structure ApiConfig where
  grid_electricity_excise_duty : ℚ
  grid_renewable_energy_charge : ℚ
  grid_electricity_transmission_price_night : ℚ
  grid_electricity_transmission_price_day : ℚ
  supplier_renewable_energy_charge : ℚ
  supplier_margin : ℚ
  vat_pct : ℚ
  vat_nord_pool : Bool
  vat_grid_excise_duty : Bool
  vat_grid_renewable : Bool
  vat_grid_transmission_night : Bool
  vat_grid_transmission_day : Bool
  vat_supplier_renewable : Bool
  vat_supplier_margin : Bool
  night_start : ℤ
  night_end : ℤ
  deriving DecidableEq

/-- One element of the upstream `blockPriceAggregates` list; `none` bounds
model a missing `deliveryStart`/`deliveryEnd` key. -/
structure NpBlock where
  deliveryStart : Option ℤ
  deliveryEnd : Option ℤ
  blockName : String
  deriving DecidableEq

/-- One element of the upstream `multiAreaEntries` list: `deliveryStart` /
`deliveryEnd` are the parsed instants (`none` = key missing), `areaPrice`
is `entryPerArea[area]` when the configured area is present. -/
structure NpEntry where
  deliveryStart : Option ℤ
  deliveryEnd : Option ℤ
  areaPrice : Option ℚ
  deriving DecidableEq

/-- One element of the `hourly_prices` list both builder paths emit. -/
structure ApiSample where
  start_time : Option ℤ
  end_time : Option ℤ
  nord_pool_price : Option ℚ
  actual_price : Option ℚ
  tariff : String
  is_holiday : Bool
  is_weekend : Bool
  deriving DecidableEq

/-- The per-day dictionary returned by `_modify_prices` /
`_create_placeholder_day_data`. -/
structure DayData where
  hourly_prices : List ApiSample
  date : ℤ
  is_holiday : Bool
  is_weekend : Bool
  data_available : Bool
  deriving DecidableEq

/-- `_modify_prices`, tariff determination for one hour (`api.py` lines
396-417): default `"night"`; holidays and weekends force `"night"`;
otherwise the first block aggregate with both bounds whose half-open
interval contains the instant decides (`"day"` iff its name is `"Peak"`). -/
def tariffForHour (is_holiday is_weekend : Bool) (blocks : List NpBlock) (dt : ℤ) : String :=
  if is_holiday || is_weekend then "night"
  else
    match blocks.find? (fun b =>
      match b.deliveryStart, b.deliveryEnd with
      | some s, some e => decide (s ≤ dt ∧ dt < e)
      | _, _ => false) with
    | some b => if b.blockName = "Peak" then "day" else "night"
    | none => "night"

/-- `_modify_prices`, transmission-price selection condition (`api.py`
lines 420-424): `is_weekend or is_holiday or (local_hour >= night_start
or local_hour < night_end)` — note: no midnight-crossing case split. -/
def transmissionIsNight (cfg : ApiConfig) (is_weekend is_holiday : Bool) (local_hour : ℤ) : Bool :=
  is_weekend || is_holiday ||
    (decide (local_hour ≥ cfg.night_start) || decide (local_hour < cfg.night_end))

/-- Body of the `for entry in data.get("multiAreaEntries", [])` loop of
`_modify_prices` (`api.py` lines 388-493) for a single entry.
`prevTariff` models the Python loop variable `tariff` leaking from the
previous iteration (reading it before any assignment is a `NameError`).
Returns the emitted `hourly_prices` element and the `tariff` value left
in scope. -/
def processEntry (cfg : ApiConfig) (localHourAt : ℤ → ℤ) (is_holiday is_weekend : Bool)
    (blocks : List NpBlock) (prevTariff : Option String) (e : NpEntry) :
    Except PErr (ApiSample × String) :=
  match e.deliveryStart with
  | some dtv =>
    let local_hour := localHourAt dtv
    let tariff := tariffForHour is_holiday is_weekend blocks dtv
    let transmission_price :=
      if transmissionIsNight cfg is_weekend is_holiday local_hour then
        cfg.grid_electricity_transmission_price_night
      else cfg.grid_electricity_transmission_price_day
    let vat_transmission :=
      if transmissionIsNight cfg is_weekend is_holiday local_hour then
        cfg.vat_grid_transmission_night
      else cfg.vat_grid_transmission_day
    match e.areaPrice with
    | some original_price =>
      let base_price := applyVat (original_price / 1000) cfg.vat_nord_pool cfg.vat_pct
      let excise_component :=
        applyVat cfg.grid_electricity_excise_duty cfg.vat_grid_excise_duty cfg.vat_pct
      let renewable_grid_component :=
        applyVat cfg.grid_renewable_energy_charge cfg.vat_grid_renewable cfg.vat_pct
      let renewable_supplier_component :=
        applyVat cfg.supplier_renewable_energy_charge cfg.vat_supplier_renewable cfg.vat_pct
      let margin_component := applyVat cfg.supplier_margin cfg.vat_supplier_margin cfg.vat_pct
      let transmission_component := applyVat transmission_price vat_transmission cfg.vat_pct
      let final_price := base_price + excise_component + renewable_grid_component +
        renewable_supplier_component + margin_component + transmission_component
      .ok ({ start_time := some dtv
             end_time := e.deliveryEnd
             nord_pool_price := some (pyRound (original_price / 1000) PRICE_DECIMAL_PRECISION)
             actual_price := some (pyRound final_price PRICE_DECIMAL_PRECISION)
             tariff := tariff
             is_holiday := is_holiday
             is_weekend := is_weekend }, tariff)
    | none =>
      -- area not in entryPerArea: prices left unmodified, the emitted
      -- sample reads `price_raw_kwh` (absent → 0) and `.get(area, 0)` (→ 0)
      .ok ({ start_time := some dtv
             end_time := e.deliveryEnd
             nord_pool_price := some 0
             actual_price := some 0
             tariff := tariff
             is_holiday := is_holiday
             is_weekend := is_weekend }, tariff)
  | none =>
    -- deliveryStart missing: the whole tariff/price block is skipped, the
    -- sample is still appended with the stale `tariff` (NameError if none)
    match prevTariff with
    | some t =>
      .ok ({ start_time := none
             end_time := e.deliveryEnd
             nord_pool_price := some 0
             actual_price := some (e.areaPrice.getD 0)
             tariff := t
             is_holiday := is_holiday
             is_weekend := is_weekend }, t)
    | none => .error .nameError

/-- The `for entry in data.get("multiAreaEntries", [])` loop of
`_modify_prices`, threading the leaked `tariff` variable. -/
def processEntries (cfg : ApiConfig) (localHourAt : ℤ → ℤ) (is_holiday is_weekend : Bool)
    (blocks : List NpBlock) : Option String → List NpEntry → Except PErr (List ApiSample)
  | _, [] => .ok []
  | prev, e :: rest =>
    match processEntry cfg localHourAt is_holiday is_weekend blocks prev e with
    | .error err => .error err
    | .ok (s, t) =>
      match processEntries cfg localHourAt is_holiday is_weekend blocks (some t) rest with
      | .error err => .error err
      | .ok xs => .ok (s :: xs)

/-- `RealElectricityPriceApiClient._modify_prices` (`api.py` lines 309-500):
holiday/weekend flags for the date, then one emitted sample per upstream
`multiAreaEntries` entry. `holidaysRes` is the (fallible) library lookup. -/
def modifyPrices (cfg : ApiConfig) (localHourAt : ℤ → ℤ)
    (holidaysRes : Except Unit (ℤ → Bool)) (dateDay : ℤ)
    (entries : List NpEntry) (blocks : List NpBlock) : Except PErr DayData :=
  match holidaysRes with
  | .error _ => .error .holidayLookup
  | .ok hol =>
    let is_weekend := decide (weekdayOf dateDay ≥ 5)
    let is_holiday := hol dateDay
    match processEntries cfg localHourAt is_holiday is_weekend blocks none entries with
    | .error err => .error err
    | .ok hourly =>
      .ok { hourly_prices := hourly
            date := dateDay
            is_holiday := is_holiday
            is_weekend := is_weekend
            data_available := true }

/-- Tariff computation of the placeholder path (`api.py` lines 277-287):
holiday/weekend force `"night"`; otherwise the night window applies, with
the midnight-crossing case split on `night_start > night_end`. -/
def placeholderTariff (is_holiday is_weekend : Bool) (night_start night_end local_hour : ℤ) :
    String :=
  if is_holiday || is_weekend then "night"
  else
    let is_night_hour :=
      if night_start > night_end then
        decide (local_hour ≥ night_start) || decide (local_hour < night_end)
      else decide (night_start ≤ local_hour) && decide (local_hour < night_end)
    if is_night_hour then "night" else "day"

/-- One placeholder slot (`api.py` lines 268-299): hour `h` of the date,
UTC; both prices are `None`. -/
def mkPlaceholderSlot (cfg : ApiConfig) (localHourAt : ℤ → ℤ) (is_holiday is_weekend : Bool)
    (dateDay : ℤ) (h : ℕ) : ApiSample :=
  let start_time : ℤ := 1440 * dateDay + 60 * (h : ℤ)
  let end_time : ℤ := start_time + 60
  let local_hour := localHourAt start_time
  { start_time := some start_time
    end_time := some end_time
    nord_pool_price := none
    actual_price := none
    tariff := placeholderTariff is_holiday is_weekend cfg.night_start cfg.night_end local_hour
    is_holiday := is_holiday
    is_weekend := is_weekend }

/-- `RealElectricityPriceApiClient._create_placeholder_day_data`
(`api.py` lines 240-307): 24 hourly UTC slots with null prices. -/
def createPlaceholderDayData (cfg : ApiConfig) (localHourAt : ℤ → ℤ)
    (holidaysRes : Except Unit (ℤ → Bool)) (dateDay : ℤ) : Except PErr DayData :=
  match holidaysRes with
  | .error _ => .error .holidayLookup
  | .ok hol =>
    let is_holiday := hol dateDay
    let is_weekend := decide (weekdayOf dateDay ≥ 5)
    .ok { hourly_prices :=
            (List.range 24).map (mkPlaceholderSlot cfg localHourAt is_holiday is_weekend dateDay)
          date := dateDay
          is_holiday := is_holiday
          is_weekend := is_weekend
          data_available := false }

/-- `const.py`: `TARIFF_OFF_PEAK = "off_peak"`. -/
def TARIFF_OFF_PEAK : String := "off_peak"

/-- `const.py`: `TARIFF_PEAK = "peak"`. -/
def TARIFF_PEAK : String := "peak"

/-- `CurrentTariffSensor._get_current_tariff_value`
(`sensors/current_price.py` lines 511-532): weekend/holiday overrides,
then the configured night window with the midnight-crossing case split. -/
def currentTariffValue (use_sat use_sun use_holiday is_sat is_sun is_holiday : Bool)
    (night_start night_end local_hour : ℤ) : String :=
  if (is_sat && use_sat) || (is_sun && use_sun) || (is_holiday && use_holiday) then
    TARIFF_OFF_PEAK
  else
    let is_night_time :=
      if night_start > night_end then
        decide (local_hour ≥ night_start) || decide (local_hour < night_end)
      else decide (night_start ≤ local_hour) && decide (local_hour < night_end)
    if is_night_time then TARIFF_OFF_PEAK else TARIFF_PEAK

/-! ### Concrete instances used by witnesses and counterexamples -/

/-- Concrete configuration with pairwise distinct component values. -/
def cfgA : ApiConfig :=
  { grid_electricity_excise_duty := 1
    grid_renewable_energy_charge := 2
    grid_electricity_transmission_price_night := 5
    grid_electricity_transmission_price_day := 6
    supplier_renewable_energy_charge := 3
    supplier_margin := 4
    vat_pct := 20
    vat_nord_pool := true
    vat_grid_excise_duty := false
    vat_grid_renewable := true
    vat_grid_transmission_night := false
    vat_grid_transmission_day := true
    vat_supplier_renewable := false
    vat_supplier_margin := true
    night_start := 22
    night_end := 7 }

/-- Configuration isolating the transmission component. -/
def cfgB : ApiConfig :=
  { grid_electricity_excise_duty := 0
    grid_renewable_energy_charge := 0
    grid_electricity_transmission_price_night := 1 / 100
    grid_electricity_transmission_price_day := 2 / 100
    supplier_renewable_energy_charge := 0
    supplier_margin := 0
    vat_pct := 0
    vat_nord_pool := false
    vat_grid_excise_duty := false
    vat_grid_renewable := false
    vat_grid_transmission_night := false
    vat_grid_transmission_day := false
    vat_supplier_renewable := false
    vat_supplier_margin := false
    night_start := 22
    night_end := 7 }

/-- A well-formed upstream entry: 10:00-11:00 UTC on day 0, price 50 EUR/MWh. -/
def entryA : NpEntry := { deliveryStart := some 600, deliveryEnd := some 660, areaPrice := some 50 }

/-- An upstream entry at local noon with wholesale price 0. -/
def entryB : NpEntry := { deliveryStart := some 720, deliveryEnd := some 780, areaPrice := some 0 }

/-- Time-zone conversion placing every instant at local hour 12. -/
def lhaNoon : ℤ → ℤ := fun _ => 12

/-! ### C1 -/

/-- C1: for every hourly wholesale entry whose `entryPerArea` carries a
price for the configured area, the emitted `actual_price` is the rounding,
to `PRICE_DECIMAL_PRECISION` (= 6) decimal places, of the sum of the
wholesale price divided by 1000, the grid excise duty, the grid renewable
charge, the supplier renewable charge, the supplier margin, and the
selected transmission price, each multiplied by `1 + vat_pct / 100`
exactly when its own tax-inclusion flag is set. -/
theorem consumerPriceComposition (cfg : ApiConfig) (lha : ℤ → ℤ) (isH isW : Bool)
    (blocks : List NpBlock) (prev : Option String) (e : NpEntry) (dtv : ℤ) (p : ℚ)
    (h1 : e.deliveryStart = some dtv) (h2 : e.areaPrice = some p) :
    ∃ s t, processEntry cfg lha isH isW blocks prev e = .ok (s, t) ∧
      s.actual_price = some (pyRound
        (applyVat (p / 1000) cfg.vat_nord_pool cfg.vat_pct
          + applyVat cfg.grid_electricity_excise_duty cfg.vat_grid_excise_duty cfg.vat_pct
          + applyVat cfg.grid_renewable_energy_charge cfg.vat_grid_renewable cfg.vat_pct
          + applyVat cfg.supplier_renewable_energy_charge cfg.vat_supplier_renewable cfg.vat_pct
          + applyVat cfg.supplier_margin cfg.vat_supplier_margin cfg.vat_pct
          + applyVat
              (if transmissionIsNight cfg isW isH (lha dtv) then
                cfg.grid_electricity_transmission_price_night
              else cfg.grid_electricity_transmission_price_day)
              (if transmissionIsNight cfg isW isH (lha dtv) then
                cfg.vat_grid_transmission_night
              else cfg.vat_grid_transmission_day)
              cfg.vat_pct)
        PRICE_DECIMAL_PRECISION) := by
  unfold processEntry
  rw [h1, h2]
  exact ⟨_, _, rfl, rfl⟩

/-- Witness for C1 at a concrete entry and configuration. -/
theorem consumerPriceComposition_witness :
    entryA.deliveryStart = some 600 ∧ entryA.areaPrice = some 50 ∧
    ∃ s t, processEntry cfgA lhaNoon false false [] none entryA = .ok (s, t) ∧
      s.actual_price = some (pyRound
        (applyVat ((50 : ℚ) / 1000) cfgA.vat_nord_pool cfgA.vat_pct
          + applyVat cfgA.grid_electricity_excise_duty cfgA.vat_grid_excise_duty cfgA.vat_pct
          + applyVat cfgA.grid_renewable_energy_charge cfgA.vat_grid_renewable cfgA.vat_pct
          + applyVat cfgA.supplier_renewable_energy_charge cfgA.vat_supplier_renewable cfgA.vat_pct
          + applyVat cfgA.supplier_margin cfgA.vat_supplier_margin cfgA.vat_pct
          + applyVat
              (if transmissionIsNight cfgA false false (lhaNoon 600) then
                cfgA.grid_electricity_transmission_price_night
              else cfgA.grid_electricity_transmission_price_day)
              (if transmissionIsNight cfgA false false (lhaNoon 600) then
                cfgA.vat_grid_transmission_night
              else cfgA.vat_grid_transmission_day)
              cfgA.vat_pct)
        PRICE_DECIMAL_PRECISION) :=
  ⟨rfl, rfl, consumerPriceComposition cfgA lhaNoon false false [] none entryA 600 50 rfl rfl⟩

/-! ### C4 -/

/-- C4 counterexample: at local noon on a plain weekday with no block
aggregates, the emitted tariff is `"night"` (the block-scan default), yet
the composed price contains the day transmission component (2/100), not
the night one (1/100): `pyRound 0.02` against the night-composed
`pyRound 0.01`. -/
theorem transmissionMismatchesTariff :
    (processEntry cfgB lhaNoon false false [] none entryB).map
        (fun st => (st.1.tariff, st.1.actual_price)) =
      .ok ("night", some (pyRound (2 / 100) PRICE_DECIMAL_PRECISION)) ∧
    pyRound (2 / 100) PRICE_DECIMAL_PRECISION ≠
      pyRound
        (applyVat ((0 : ℚ) / 1000) cfgB.vat_nord_pool cfgB.vat_pct
          + applyVat cfgB.grid_electricity_excise_duty cfgB.vat_grid_excise_duty cfgB.vat_pct
          + applyVat cfgB.grid_renewable_energy_charge cfgB.vat_grid_renewable cfgB.vat_pct
          + applyVat cfgB.supplier_renewable_energy_charge cfgB.vat_supplier_renewable cfgB.vat_pct
          + applyVat cfgB.supplier_margin cfgB.vat_supplier_margin cfgB.vat_pct
          + applyVat cfgB.grid_electricity_transmission_price_night
              cfgB.vat_grid_transmission_night cfgB.vat_pct)
        PRICE_DECIMAL_PRECISION := by
  constructor
  · show Except.map _ (processEntry cfgB lhaNoon false false [] none entryB) = _
    norm_num [processEntry, entryB, cfgB, lhaNoon, tariffForHour, transmissionIsNight,
      applyVat, Except.map]
  · norm_num [cfgB, applyVat, pyRound, roundHalfEven, PRICE_DECIMAL_PRECISION]

/-- C4 amended: the transmission component (and its VAT flag) composed
into the price is the night one exactly when `is_weekend or is_holiday or
local_hour >= night_start or local_hour < night_end` (no
midnight-crossing case split), independently of the block-derived
`tariff` field, which is emitted separately. -/
theorem transmissionSelectionRule (cfg : ApiConfig) (lha : ℤ → ℤ) (isH isW : Bool)
    (blocks : List NpBlock) (prev : Option String) (e : NpEntry) (dtv : ℤ) (p : ℚ)
    (h1 : e.deliveryStart = some dtv) (h2 : e.areaPrice = some p) :
    ∃ s t, processEntry cfg lha isH isW blocks prev e = .ok (s, t) ∧
      s.tariff = tariffForHour isH isW blocks dtv ∧
      s.actual_price = some (pyRound
        (applyVat (p / 1000) cfg.vat_nord_pool cfg.vat_pct
          + applyVat cfg.grid_electricity_excise_duty cfg.vat_grid_excise_duty cfg.vat_pct
          + applyVat cfg.grid_renewable_energy_charge cfg.vat_grid_renewable cfg.vat_pct
          + applyVat cfg.supplier_renewable_energy_charge cfg.vat_supplier_renewable cfg.vat_pct
          + applyVat cfg.supplier_margin cfg.vat_supplier_margin cfg.vat_pct
          + applyVat
              (if isW || isH || decide (lha dtv ≥ cfg.night_start)
                  || decide (lha dtv < cfg.night_end) then
                cfg.grid_electricity_transmission_price_night
              else cfg.grid_electricity_transmission_price_day)
              (if isW || isH || decide (lha dtv ≥ cfg.night_start)
                  || decide (lha dtv < cfg.night_end) then
                cfg.vat_grid_transmission_night
              else cfg.vat_grid_transmission_day)
              cfg.vat_pct)
        PRICE_DECIMAL_PRECISION) := by
  unfold processEntry
  rw [h1, h2]
  refine ⟨_, _, rfl, rfl, ?_⟩
  simp only [transmissionIsNight, Bool.or_assoc]

/-- Witness for C4's amended statement at a concrete weekday entry. -/
theorem transmissionSelectionRule_witness :
    entryB.deliveryStart = some 720 ∧ entryB.areaPrice = some 0 ∧
    ∃ s t, processEntry cfgB lhaNoon false false [] none entryB = .ok (s, t) ∧
      s.tariff = tariffForHour false false [] 720 ∧
      s.actual_price = some (pyRound
        (applyVat ((0 : ℚ) / 1000) cfgB.vat_nord_pool cfgB.vat_pct
          + applyVat cfgB.grid_electricity_excise_duty cfgB.vat_grid_excise_duty cfgB.vat_pct
          + applyVat cfgB.grid_renewable_energy_charge cfgB.vat_grid_renewable cfgB.vat_pct
          + applyVat cfgB.supplier_renewable_energy_charge cfgB.vat_supplier_renewable cfgB.vat_pct
          + applyVat cfgB.supplier_margin cfgB.vat_supplier_margin cfgB.vat_pct
          + applyVat
              (if false || false || decide (lhaNoon 720 ≥ cfgB.night_start)
                  || decide (lhaNoon 720 < cfgB.night_end) then
                cfgB.grid_electricity_transmission_price_night
              else cfgB.grid_electricity_transmission_price_day)
              (if false || false || decide (lhaNoon 720 ≥ cfgB.night_start)
                  || decide (lhaNoon 720 < cfgB.night_end) then
                cfgB.vat_grid_transmission_night
              else cfgB.vat_grid_transmission_day)
              cfgB.vat_pct)
        PRICE_DECIMAL_PRECISION) :=
  ⟨rfl, rfl, transmissionSelectionRule cfgB lhaNoon false false [] none entryB 720 0 rfl rfl⟩

/-! ### C7 -/

/-- C7 counterexample: with a failing holiday lookup, `_modify_prices`
does not complete at all (so in particular it does not default
`is_holiday` to `false`): the computation is an error. -/
theorem holidayFailureDoesNotDegrade :
    ¬ ∃ out, modifyPrices cfgA lhaNoon (.error ()) 0 [entryA] [] = .ok out := by
  intro ⟨out, h⟩
  simp [modifyPrices] at h

/-- C7 amended: a raising holiday lookup propagates out of both
`_modify_prices` and `_create_placeholder_day_data` (where
`async_get_data` turns it into `RealElectricityPriceApiClientError`),
instead of defaulting `is_holiday` to `false`; only the current-tariff
sensor path catches the lookup failure. -/
theorem holidayFailurePropagates (cfg : ApiConfig) (lha : ℤ → ℤ) (d : ℤ)
    (entries : List NpEntry) (blocks : List NpBlock) :
    modifyPrices cfg lha (.error ()) d entries blocks = .error .holidayLookup ∧
    createPlaceholderDayData cfg lha (.error ()) d = .error .holidayLookup :=
  ⟨rfl, rfl⟩

/-! ### C5 -/

/-- C5 counterexample: the real-data path with an empty upstream
`multiAreaEntries` list yields a day with 0 hourly samples, not 24. -/
theorem realPathNotAlways24 :
    (modifyPrices cfgA lhaNoon (.ok fun _ => false) 0 [] []).map
        (fun r => r.hourly_prices.length) = .ok 0 ∧ (0 : ℕ) ≠ 24 := by
  exact ⟨rfl, by decide⟩

/-- The `multiAreaEntries` loop emits exactly one sample per entry. -/
theorem processEntries_length (cfg : ApiConfig) (lha : ℤ → ℤ) (isH isW : Bool)
    (blocks : List NpBlock) :
    ∀ (entries : List NpEntry) (prev : Option String) (xs : List ApiSample),
      processEntries cfg lha isH isW blocks prev entries = .ok xs →
      xs.length = entries.length := by
  intro entries
  induction entries with
  | nil => intro prev xs h; cases h; rfl
  | cons e rest ih =>
    intro prev xs h
    unfold processEntries at h
    cases hpe : processEntry cfg lha isH isW blocks prev e with
    | error err => rw [hpe] at h; cases h
    | ok st =>
      obtain ⟨s, t⟩ := st
      rw [hpe] at h
      dsimp only at h
      cases hrest : processEntries cfg lha isH isW blocks (some t) rest with
      | error err => rw [hrest] at h; cases h
      | ok ys =>
        rw [hrest] at h
        cases h
        simp [ih (some t) ys hrest]

/-- C5 amended: the placeholder path always produces exactly 24
contiguous, UTC-hour-aligned hourly slots; the real-data path emits one
sample per upstream `multiAreaEntries` entry (carrying the upstream's own
times), so it produces 24 samples only when the upstream supplies 24. -/
theorem daySeriesStructure :
    (∀ (cfg : ApiConfig) (lha : ℤ → ℤ) (hol : ℤ → Bool) (d : ℤ),
      ∃ out, createPlaceholderDayData cfg lha (.ok hol) d = .ok out ∧
        out.hourly_prices.length = 24 ∧
        out.hourly_prices.map (fun s => s.start_time) =
          (List.range 24).map (fun h => some (1440 * d + 60 * (h : ℤ))) ∧
        List.Chain' (fun a b => a.end_time = b.start_time) out.hourly_prices ∧
        out.data_available = false) ∧
    (∀ (cfg : ApiConfig) (lha : ℤ → ℤ) (hols : Except Unit (ℤ → Bool)) (d : ℤ)
        (entries : List NpEntry) (blocks : List NpBlock) (out : DayData),
      modifyPrices cfg lha hols d entries blocks = .ok out →
      out.hourly_prices.length = entries.length ∧ out.data_available = true) := by
  constructor
  · intro cfg lha hol d
    refine ⟨_, rfl, ?_, ?_, ?_, rfl⟩
    · simp [createPlaceholderDayData]
    · show ((List.range 24).map _).map _ = _
      rw [List.map_map]
      rfl
    · show List.Chain' _ ((List.range 24).map _)
      rw [List.chain'_map]
      rw [show (24 : ℕ) = Nat.succ 23 from rfl, List.chain'_range_succ]
      intro m hm
      simp only [mkPlaceholderSlot, Option.some.injEq]
      push_cast
      ring
  · intro cfg lha hols d entries blocks out h
    cases hols with
    | error u => cases h
    | ok hol =>
      unfold modifyPrices at h
      dsimp only at h
      cases hpe : processEntries cfg lha (hol d) (decide (weekdayOf d ≥ 5)) blocks none entries with
      | error err => rw [hpe] at h; cases h
      | ok xs =>
        rw [hpe] at h
        cases h
        exact ⟨processEntries_length cfg lha (hol d) (decide (weekdayOf d ≥ 5)) blocks
          entries none xs hpe, rfl⟩

/-- Witness for C5's amended statement: both conjuncts applied at a
concrete date, configuration and a one-entry upstream list. -/
theorem daySeriesStructure_witness :
    (∃ out, createPlaceholderDayData cfgA lhaNoon (.ok fun _ => false) 0 = .ok out ∧
      out.hourly_prices.length = 24) ∧
    (modifyPrices cfgA lhaNoon (.ok fun _ => false) 0 [entryA] []).map
        (fun r => r.hourly_prices.length) = .ok 1 := by
  constructor
  · obtain ⟨out, h1, h2, -⟩ := daySeriesStructure.1 cfgA lhaNoon (fun _ => false) 0
    exact ⟨out, h1, h2⟩
  · obtain ⟨out, hout⟩ : ∃ out,
        modifyPrices cfgA lhaNoon (.ok fun _ => false) 0 [entryA] [] = .ok out := ⟨_, rfl⟩
    have hlen := (daySeriesStructure.2 cfgA lhaNoon (.ok fun _ => false) 0 [entryA] [] out hout).1
    rw [hout, Except.map]
    simp [hlen]

/-! ### C6 -/

/-- C6: with the night-window strategy active and no weekend/holiday
override applying, the current-tariff sensor classifies hour `h` as
off-peak iff `h >= start or h < end` when the window crosses midnight
(`start > end`), and iff `start <= h < end` otherwise; every other hour is
peak. The placeholder builder path classifies identically with the
strings `"night"` / `"day"`. -/
theorem nightWindowClassification (use_sat use_sun use_holiday is_sat is_sun is_holiday : Bool)
    (ns ne h : ℤ)
    (hsat : (is_sat && use_sat) = false)
    (hsun : (is_sun && use_sun) = false)
    (hhol : (is_holiday && use_holiday) = false) :
    (currentTariffValue use_sat use_sun use_holiday is_sat is_sun is_holiday ns ne h =
        TARIFF_OFF_PEAK ↔ (if ns > ne then h ≥ ns ∨ h < ne else ns ≤ h ∧ h < ne)) ∧
    (currentTariffValue use_sat use_sun use_holiday is_sat is_sun is_holiday ns ne h =
        TARIFF_PEAK ↔ ¬ (if ns > ne then h ≥ ns ∨ h < ne else ns ≤ h ∧ h < ne)) ∧
    (placeholderTariff false false ns ne h = "night" ↔
      (if ns > ne then h ≥ ns ∨ h < ne else ns ≤ h ∧ h < ne)) ∧
    (placeholderTariff false false ns ne h = "day" ↔
      ¬ (if ns > ne then h ≥ ns ∨ h < ne else ns ≤ h ∧ h < ne)) := by
  unfold currentTariffValue placeholderTariff TARIFF_OFF_PEAK TARIFF_PEAK
  rw [hsat, hsun, hhol]
  by_cases hcross : ns > ne <;>
    simp [hcross] <;>
    by_cases h1 : h ≥ ns <;> by_cases h2 : h < ne <;>
      simp_all

/-- Witness for C6: window 22→07 puts hours 23 and 6 in the night bucket
and hour 12 in the day bucket, on both embedded classifiers. -/
theorem nightWindowClassification_witness :
    currentTariffValue false false false false false false 22 7 23 = TARIFF_OFF_PEAK ∧
    currentTariffValue false false false false false false 22 7 6 = TARIFF_OFF_PEAK ∧
    currentTariffValue false false false false false false 22 7 12 = TARIFF_PEAK ∧
    placeholderTariff false false 22 7 23 = "night" ∧
    placeholderTariff false false 22 7 6 = "night" ∧
    placeholderTariff false false 22 7 12 = "day" :=
  ⟨(nightWindowClassification false false false false false false 22 7 23
      rfl rfl rfl).1.mpr (by norm_num),
   (nightWindowClassification false false false false false false 22 7 6
      rfl rfl rfl).1.mpr (by norm_num),
   (nightWindowClassification false false false false false false 22 7 12
      rfl rfl rfl).2.1.mpr (by norm_num),
   (nightWindowClassification false false false false false false 22 7 23
      rfl rfl rfl).2.2.1.mpr (by norm_num),
   (nightWindowClassification false false false false false false 22 7 6
      rfl rfl rfl).2.2.1.mpr (by norm_num),
   (nightWindowClassification false false false false false false 22 7 12
      rfl rfl rfl).2.2.2.mpr (by norm_num)⟩

/-! ## Cheap-period analyzer (typed embedding)

`_analyze_cheap_prices` / `_group_consecutive_hours` of
`cheap_hours_coordinator.py` and `cheap_price_coordinator.py`, over
samples whose timestamps have already been parsed (the analyzers parse
every `start_time` before this stage). Times are integer minutes UTC. -/

/-- An hourly price sample as consumed by the analyzers: parsed
`start_time` / `end_time` and the `actual_price` value. -/
structure Sample where
  start : ℤ
  stop : ℤ
  price : ℚ
  deriving DecidableEq

/-- Default sample used only to read `head?` / `getLast?` of lists that
are provably non-empty. -/
def sampleD : Sample := ⟨0, 0, 0⟩

/-- An emitted cheap range (the `current_range` dictionary after its
`prices` list is popped). -/
structure CheapRange where
  start : ℤ
  stop : ℤ
  price : ℚ
  min_price : ℚ
  max_price : ℚ
  avg_price : ℚ
  hour_count : ℕ
  deriving DecidableEq

/-- The in-progress `current_range` dictionary, still carrying its
`prices` list. -/
structure RangeAcc where
  start : ℤ
  stop : ℤ
  price : ℚ
  min_price : ℚ
  max_price : ℚ
  avg_price : ℚ
  hour_count : ℕ
  prices : List ℚ
  deriving DecidableEq

/-- Start a new `current_range` from one sample
(`cheap_hours_coordinator.py` lines 465-476). -/
def newAcc (s : Sample) : RangeAcc :=
  { start := s.start, stop := s.stop, price := s.price, min_price := s.price,
    max_price := s.price, avg_price := s.price, hour_count := 1, prices := [s.price] }

/-- Extend the `current_range` with a consecutive sample
(`cheap_hours_coordinator.py` lines 483-496): append the price, bump
`hour_count`, update min/max and recompute the mean from the list. -/
def extendAcc (r : RangeAcc) (s : Sample) : RangeAcc :=
  let prices := r.prices ++ [s.price]
  { r with
    stop := s.stop
    hour_count := r.hour_count + 1
    prices := prices
    min_price := min r.min_price s.price
    max_price := max r.max_price s.price
    avg_price := prices.sum / (prices.length : ℚ) }

/-- Pop the `prices` list before emitting a range. -/
def finalizeAcc (r : RangeAcc) : CheapRange :=
  { start := r.start, stop := r.stop, price := r.price, min_price := r.min_price,
    max_price := r.max_price, avg_price := r.avg_price, hour_count := r.hour_count }

/-- The `for price_data in cheap_prices` loop of
`_group_consecutive_hours` (both coordinators): a range is extended iff
the sample's `start_time` equals the current range's `end_time`,
otherwise the current range is emitted and a new one starts; the last
range is emitted at the end. -/
def groupLoop : Option RangeAcc → List Sample → List CheapRange
  | none, [] => []
  | some r, [] => [finalizeAcc r]
  | none, s :: rest => groupLoop (some (newAcc s)) rest
  | some r, s :: rest =>
    if s.start = r.stop then groupLoop (some (extendAcc r s)) rest
    else finalizeAcc r :: groupLoop (some (newAcc s)) rest

/-- `CheapHoursDataUpdateCoordinator._group_consecutive_hours` /
`CheapPriceDataUpdateCoordinator._group_consecutive_hours`. -/
def groupConsecutiveHours (l : List Sample) : List CheapRange := groupLoop none l

/-- Reference decomposition: split a sample list into its maximal
adjacency runs. `cur` is the in-progress run in reverse order,
`prevStop` the `end_time` of its most recent sample. -/
def splitRunsAux : List Sample → ℤ → List Sample → List (List Sample)
  | cur, _, [] => [cur.reverse]
  | cur, prevStop, s :: rest =>
    if s.start = prevStop then splitRunsAux (s :: cur) s.stop rest
    else cur.reverse :: splitRunsAux [s] s.stop rest

/-- Reference decomposition of a sample list into maximal runs of
consecutive samples (`start = previous stop`). -/
def splitRuns : List Sample → List (List Sample)
  | [] => []
  | s :: rest => splitRunsAux [s] s.stop rest

/-- The (start, stop, hour count) shape of an emitted range. -/
def rangeKey (r : CheapRange) : ℤ × ℤ × ℕ := (r.start, r.stop, r.hour_count)

/-- The (start of first sample, stop of last sample, length) shape of a
run. -/
def runKey (run : List Sample) : ℤ × ℤ × ℕ :=
  ((run.head?.getD sampleD).start, (run.getLast?.getD sampleD).stop, run.length)

/-- Key of the emitted range matches the key of the reversed pending run. -/
theorem finalize_key (acc : RangeAcc) (c : Sample) (cs : List Sample)
    (h1 : acc.start = (cs.getLastD c).start) (h2 : acc.stop = c.stop)
    (h3 : acc.hour_count = cs.length + 1) :
    rangeKey (finalizeAcc acc) = runKey ((c :: cs).reverse) := by
  unfold rangeKey runKey finalizeAcc
  rw [List.head?_reverse, List.getLast?_reverse, ← List.getLastD_eq_getLast?,
    List.getLastD_cons, List.head?_cons, Option.getD_some, List.length_reverse,
    List.length_cons, h1, h2, h3]

/-- Core correspondence: the merge loop with a pending accumulator agrees
with the run splitter with the matching pending (reversed) run. -/
theorem groupLoop_splitRunsAux (l : List Sample) :
    ∀ (c : Sample) (cs : List Sample) (acc : RangeAcc),
      acc.start = (cs.getLastD c).start →
      acc.stop = c.stop →
      acc.hour_count = cs.length + 1 →
      (groupLoop (some acc) l).map rangeKey =
        (splitRunsAux (c :: cs) c.stop l).map runKey := by
  induction l with
  | nil =>
    intro c cs acc h1 h2 h3
    simp only [groupLoop, splitRunsAux, List.map_cons, List.map_nil]
    rw [finalize_key acc c cs h1 h2 h3]
  | cons s rest ih =>
    intro c cs acc h1 h2 h3
    simp only [groupLoop, splitRunsAux, h2]
    by_cases hadj : s.start = c.stop
    · simp only [hadj, if_true]
      apply ih s (c :: cs) (extendAcc acc s)
      · show acc.start = ((c :: cs).getLastD s).start
        rw [List.getLastD_cons]
        exact h1
      · rfl
      · show acc.hour_count + 1 = (c :: cs).length + 1
        rw [h3, List.length_cons]
    · simp only [hadj, if_false, List.map_cons]
      rw [finalize_key acc c cs h1 h2 h3]
      rw [ih s [] (newAcc s) rfl rfl rfl]

/-- The run splitter only regroups: flattening its output with a pending
(reversed) run restores the input. -/
theorem splitRunsAux_flatten (l : List Sample) :
    ∀ (c : Sample) (cs : List Sample),
      (splitRunsAux (c :: cs) c.stop l).flatten = (c :: cs).reverse ++ l := by
  induction l with
  | nil => intro c cs; simp [splitRunsAux]
  | cons s rest ih =>
    intro c cs
    simp only [splitRunsAux]
    by_cases hadj : s.start = c.stop
    · rw [if_pos hadj, ih s (c :: cs)]
      simp
    · rw [if_neg hadj, List.flatten_cons, ih s []]
      simp

/-- The runs of `splitRuns` concatenate back to the input list. -/
theorem splitRuns_flatten (l : List Sample) : (splitRuns l).flatten = l := by
  cases l with
  | nil => rfl
  | cons s rest => simpa [splitRuns] using splitRunsAux_flatten rest s []

/-- Every run produced by the splitter is non-empty and internally
consecutive (`start = previous stop`), provided the pending reversed run
is. -/
theorem splitRunsAux_runs (l : List Sample) :
    ∀ (c : Sample) (cs : List Sample),
      List.Chain' (fun a b => a.start = b.stop) (c :: cs) →
      ∀ run ∈ splitRunsAux (c :: cs) c.stop l,
        run ≠ [] ∧ List.Chain' (fun a b => b.start = a.stop) run := by
  induction l with
  | nil =>
    intro c cs hrev run hrun
    simp only [splitRunsAux, List.mem_singleton] at hrun
    subst hrun
    refine ⟨by simp, ?_⟩
    rw [List.chain'_reverse]
    exact hrev
  | cons s rest ih =>
    intro c cs hrev run hrun
    simp only [splitRunsAux] at hrun
    by_cases hadj : s.start = c.stop
    · rw [if_pos hadj] at hrun
      exact ih s (c :: cs) (List.chain'_cons.mpr ⟨hadj, hrev⟩) run hrun
    · rw [if_neg hadj] at hrun
      rcases List.mem_cons.mp hrun with h | h
      · subst h
        refine ⟨by simp, ?_⟩
        rw [List.chain'_reverse]
        exact hrev
      · exact ih s [] (List.chain'_singleton s) run h

/-- Every run produced by `splitRuns` is non-empty and internally
consecutive. -/
theorem splitRuns_runs (l : List Sample) :
    ∀ run ∈ splitRuns l, run ≠ [] ∧ List.Chain' (fun a b => b.start = a.stop) run := by
  cases l with
  | nil => intro run hrun; cases hrun
  | cons s rest => exact splitRunsAux_runs rest s [] (List.chain'_singleton s)

/-- The splitter's first emitted run starts with the oldest pending
sample. -/
theorem splitRunsAux_head (l : List Sample) :
    ∀ (c : Sample) (cs : List Sample),
      ∃ run rs, splitRunsAux (c :: cs) c.stop l = run :: rs ∧
        (runKey run).1 = (cs.getLastD c).start := by
  induction l with
  | nil =>
    intro c cs
    refine ⟨(c :: cs).reverse, [], rfl, ?_⟩
    unfold runKey
    rw [List.head?_reverse, ← List.getLastD_eq_getLast?, List.getLastD_cons]
  | cons s rest ih =>
    intro c cs
    simp only [splitRunsAux]
    by_cases hadj : s.start = c.stop
    · rw [if_pos hadj]
      obtain ⟨run, rs, heq, hkey⟩ := ih s (c :: cs)
      rw [List.getLastD_cons] at hkey
      exact ⟨run, rs, heq, hkey⟩
    · rw [if_neg hadj]
      refine ⟨(c :: cs).reverse, _, rfl, ?_⟩
      unfold runKey
      rw [List.head?_reverse, ← List.getLastD_eq_getLast?, List.getLastD_cons]

/-- Key boundary property: when the input continues a sorted
(`stop ≤ next start`) chain, consecutive runs satisfy
`last stop < next run's first start` (sortedness gives `≤`, the split
condition gives `≠`). -/
theorem splitRunsAux_chainLt (l : List Sample) :
    ∀ (c : Sample) (cs : List Sample),
      List.Chain' (fun a b => a.stop ≤ b.start) (c :: l) →
      List.Chain' (fun r1 r2 => (runKey r1).2.1 < (runKey r2).1)
        (splitRunsAux (c :: cs) c.stop l) := by
  induction l with
  | nil =>
    intro c cs _
    exact List.chain'_singleton _
  | cons s rest ih =>
    intro c cs hc
    simp only [splitRunsAux]
    obtain ⟨hcs, htail⟩ := List.chain'_cons.mp hc
    by_cases hadj : s.start = c.stop
    · rw [if_pos hadj]
      exact ih s (c :: cs) htail
    · rw [if_neg hadj]
      obtain ⟨run, rs, heq, hkey⟩ := splitRunsAux_head rest s []
      rw [heq]
      refine List.chain'_cons.mpr ⟨?_, ?_⟩
      · show (runKey (c :: cs).reverse).2.1 < (runKey run).1
        rw [hkey]
        unfold runKey
        rw [List.getLast?_reverse, List.head?_cons, Option.getD_some]
        show c.stop < (List.getLastD [] s).start
        exact lt_of_le_of_ne hcs (fun h => hadj h.symm)
      · have := ih s [] htail
        rw [heq] at this
        exact this

/-- A non-empty, internally consecutive run of hour-long samples spans
exactly `60 * length` minutes. -/
theorem runSpan (run : List Sample) (hne : run ≠ [])
    (hchain : List.Chain' (fun a b => b.start = a.stop) run)
    (hhour : ∀ s ∈ run, s.stop = s.start + 60) :
    (runKey run).2.1 = (runKey run).1 + 60 * (run.length : ℤ) := by
  induction run with
  | nil => exact absurd rfl hne
  | cons x xs ih =>
    cases xs with
    | nil =>
      unfold runKey
      simp only [List.getLast?_singleton, List.head?_cons, Option.getD_some, List.length_cons,
        List.length_nil]
      rw [hhour x (List.mem_singleton.mpr rfl)]
      push_cast
      ring
    | cons y ys =>
      obtain ⟨hxy, hchain2⟩ := List.chain'_cons.mp hchain
      have htail := ih (by simp) hchain2
        (fun s hs => hhour s (List.mem_cons_of_mem _ hs))
      unfold runKey at htail ⊢
      rw [List.getLast?_cons_cons]
      simp only [List.head?_cons, Option.getD_some, List.length_cons] at htail ⊢
      rw [htail, hxy, hhour x (List.mem_cons_self x _)]
      push_cast
      ring

/-! ### C2 -/

/-- C2: on a chronologically sorted (`stop ≤ next start`) list of
hour-long cheap samples, `_group_consecutive_hours` emits exactly the
maximal runs in which each sample's `start_time` equals the previous
cheap sample's `end_time`: the emitted (start, end, hour_count) keys are
exactly the keys of the maximal-run decomposition (whose runs are
non-empty, internally consecutive and concatenate back to the input);
ranges are chronological, non-overlapping and never adjacent
(`previous end < next start`); each range spans `start + 60·hour_count`;
and `hour_count` is the number of absorbed samples of its run. -/
theorem mergePassEmitsMaximalRuns (l : List Sample)
    (hHour : ∀ s ∈ l, s.stop = s.start + 60)
    (hSorted : List.Chain' (fun a b => a.stop ≤ b.start) l) :
    (groupConsecutiveHours l).map rangeKey = (splitRuns l).map runKey ∧
    (splitRuns l).flatten = l ∧
    (∀ run ∈ splitRuns l, run ≠ [] ∧ List.Chain' (fun a b => b.start = a.stop) run) ∧
    List.Chain' (fun r1 r2 => r1.stop < r2.start) (groupConsecutiveHours l) ∧
    (∀ r ∈ groupConsecutiveHours l, r.stop = r.start + 60 * (r.hour_count : ℤ)) ∧
    (groupConsecutiveHours l).map CheapRange.hour_count = (splitRuns l).map List.length := by
  have hkeys : (groupConsecutiveHours l).map rangeKey = (splitRuns l).map runKey := by
    cases l with
    | nil => rfl
    | cons s rest =>
      show (groupLoop (some (newAcc s)) rest).map rangeKey = _
      exact groupLoop_splitRunsAux rest s [] (newAcc s) rfl rfl rfl
  have hlt : List.Chain' (fun r1 r2 => (runKey r1).2.1 < (runKey r2).1) (splitRuns l) := by
    cases l with
    | nil => exact List.chain'_nil
    | cons s rest => exact splitRunsAux_chainLt rest s [] hSorted
  refine ⟨hkeys, splitRuns_flatten l, splitRuns_runs l, ?_, ?_, ?_⟩
  · have hmap : List.Chain' (fun k1 k2 => k1.2.1 < k2.1) ((splitRuns l).map runKey) :=
      (List.chain'_map runKey).mpr hlt
    rw [← hkeys] at hmap
    exact (List.chain'_map rangeKey).mp hmap
  · intro r hr
    have hmem : rangeKey r ∈ (splitRuns l).map runKey := by
      rw [← hkeys]
      exact List.mem_map_of_mem rangeKey hr
    obtain ⟨run, hrunmem, hkeyeq⟩ := List.mem_map.mp hmem
    obtain ⟨hne, hchain⟩ := splitRuns_runs l run hrunmem
    have hhour : ∀ s ∈ run, s.stop = s.start + 60 := by
      intro s hs
      exact hHour s ((splitRuns_flatten l) ▸ List.mem_flatten.mpr ⟨run, hrunmem, hs⟩)
    have hspan := runSpan run hne hchain hhour
    have h1 : r.start = (runKey run).1 := congrArg (fun k => k.1) hkeyeq.symm
    have h2 : r.stop = (runKey run).2.1 := congrArg (fun k => k.2.1) hkeyeq.symm
    have h3 : r.hour_count = run.length := congrArg (fun k => k.2.2) hkeyeq.symm
    rw [h1, h2, h3, hspan]
  · have := congrArg (List.map (fun k : ℤ × ℤ × ℕ => k.2.2)) hkeys
    rw [List.map_map, List.map_map] at this
    exact this

/-- Concrete sample list for the C2 witness: cheap hours 00:00-01:00,
01:00-02:00 and 03:00-04:00 (gap at 02:00-03:00), all at price 1. -/
def c2Samples : List Sample := [⟨0, 60, 1⟩, ⟨60, 120, 1⟩, ⟨180, 240, 1⟩]

/-- Witness for C2: the hypotheses hold for `c2Samples` and the merge
yields exactly two ranges, [00:00, 02:00) with `hour_count` 2 and
[03:00, 04:00) with `hour_count` 1. -/
theorem mergePassEmitsMaximalRuns_witness :
    (∀ s ∈ c2Samples, s.stop = s.start + 60) ∧
    List.Chain' (fun a b => a.stop ≤ b.start) c2Samples ∧
    List.Chain' (fun r1 r2 => r1.stop < r2.start) (groupConsecutiveHours c2Samples) ∧
    (groupConsecutiveHours c2Samples).map rangeKey = [(0, 120, 2), (180, 240, 1)] :=
  ⟨by decide, by simp [c2Samples, List.chain'_cons],
   (mergePassEmitsMaximalRuns c2Samples (by decide)
      (by simp [c2Samples, List.chain'_cons])).2.2.2.1,
   by decide⟩

/-! ### C3 -/

/-- Future filter of both coordinators' `_analyze_cheap_prices`
(`cheap_hours_coordinator.py` lines 337-340,
`cheap_price_coordinator.py` lines 210-211): keep samples with
`start_time_dt >= current_time`, where `current_time` is the raw
`datetime.now(UTC)` — not rounded down to the hour. -/
def futurePrices (now : ℤ) (l : List Sample) : List Sample :=
  l.filter (fun p => decide (p.start ≥ now))

/-- The sensors' hour-boundary rounding
(`now.replace(minute=0, second=0, microsecond=0)`), for comparison. -/
def currentHourStart (now : ℤ) : ℤ := 60 * (now / 60)

/-- C3 evaluated at the failing input: at 10:30 the coordinators' future
filter drops the in-progress 10:00-11:00 sample even though its start
time is not before the current hour boundary (10:00), which the claim
requires to be kept. -/
theorem futureFilterDropsCurrentHour :
    futurePrices 630 [⟨600, 660, 1⟩] = [] ∧
    currentHourStart 630 = 600 ∧
    (600 : ℤ) ≥ currentHourStart 630 := by
  refine ⟨?_, by decide, by decide⟩
  rfl

/-! ### C8 -/

/-- `df["price"].min()` over the future rows
(`cheap_price_coordinator.py` line 218); the empty case is unreachable
there because the analyzer returns earlier when `df.empty`. -/
def minPrice : List ℚ → ℚ
  | [] => 0
  | p :: ps => ps.foldl min p

/-- Cheap-row selection of
`CheapPriceDataUpdateCoordinator._analyze_cheap_prices`
(`cheap_price_coordinator.py` lines 217-230): the observed-minimum
relative-threshold policy. -/
def analyzeCheapRelative (threshold : ℚ) (future : List Sample) : List Sample :=
  let min_price := minPrice (future.map Sample.price)
  let max_cheap_price := min_price * (1 + threshold / 100)
  future.filter (fun p => decide (p.price ≤ max_cheap_price))

/-- `foldl min` stays below every element and the seed. -/
theorem foldl_min_le (ps : List ℚ) : ∀ (p : ℚ),
    ps.foldl min p ≤ p ∧ ∀ q ∈ ps, ps.foldl min p ≤ q := by
  induction ps with
  | nil => intro p; exact ⟨le_refl p, by intro q hq; cases hq⟩
  | cons x xs ih =>
    intro p
    refine ⟨le_trans (ih (min p x)).1 (min_le_left p x), ?_⟩
    intro q hq
    rcases List.mem_cons.mp hq with h | h
    · subst h
      exact le_trans (ih (min p q)).1 (min_le_right p q)
    · exact (ih (min p x)).2 q h

/-- `foldl min` is attained by the seed or an element. -/
theorem foldl_min_mem (ps : List ℚ) : ∀ (p : ℚ), ps.foldl min p ∈ p :: ps := by
  induction ps with
  | nil => intro p; exact List.mem_singleton.mpr rfl
  | cons x xs ih =>
    intro p
    show List.foldl min (min p x) xs ∈ p :: x :: xs
    rcases List.mem_cons.mp (ih (min p x)) with h | h
    · rw [h]
      rcases min_choice p x with hc | hc
      · rw [hc]; exact List.mem_cons_self _ _
      · rw [hc]; exact List.mem_cons_of_mem _ (List.mem_cons_self _ _)
    · exact List.mem_cons_of_mem _ (List.mem_cons_of_mem _ h)

/-- C8: under the observed-minimum relative-threshold policy, a future
sample is selected as cheap iff its price is at most
`min(future prices) * (1 + threshold/100)`; moreover the anchor really is
the observed minimum of the non-empty future price list (it is attained
and bounds every price from below). -/
theorem relativeThresholdCheapSet (future : List Sample) (threshold : ℚ)
    (hne : future ≠ []) :
    (∀ p, p ∈ analyzeCheapRelative threshold future ↔
      p ∈ future ∧
        p.price ≤ minPrice (future.map Sample.price) * (1 + threshold / 100)) ∧
    minPrice (future.map Sample.price) ∈ future.map Sample.price ∧
    (∀ q ∈ future.map Sample.price, minPrice (future.map Sample.price) ≤ q) := by
  refine ⟨?_, ?_, ?_⟩
  · intro p
    simp [analyzeCheapRelative, List.mem_filter]
  · cases future with
    | nil => exact absurd rfl hne
    | cons s rest =>
      show minPrice (s.price :: rest.map Sample.price) ∈ _
      unfold minPrice
      exact foldl_min_mem (rest.map Sample.price) s.price
  · cases future with
    | nil => exact absurd rfl hne
    | cons s rest =>
      intro q hq
      show minPrice (s.price :: rest.map Sample.price) ≤ q
      unfold minPrice
      rcases List.mem_cons.mp hq with h | h
      · rw [h]
        exact (foldl_min_le (rest.map Sample.price) s.price).1
      · exact (foldl_min_le (rest.map Sample.price) s.price).2 q h

/-- The spec's relative-threshold example: future prices 0.10, 0.12,
0.20, 0.11 in four consecutive hours. -/
def c8Samples : List Sample :=
  [⟨0, 60, 1/10⟩, ⟨60, 120, 12/100⟩, ⟨120, 180, 2/10⟩, ⟨180, 240, 11/100⟩]

/-- Witness for C8: with threshold 10 % the cheap set of `c8Samples` is
exactly the samples at positions 0 and 3 (prices 0.10 and 0.11), which
merge into two non-adjacent ranges of one hour each. -/
theorem relativeThresholdCheapSet_witness :
    c2Samples ≠ [] ∧
    ((⟨0, 60, 1/10⟩ : Sample) ∈ analyzeCheapRelative 10 c8Samples ↔
      (⟨0, 60, 1/10⟩ : Sample) ∈ c8Samples ∧
        (1/10 : ℚ) ≤ minPrice (c8Samples.map Sample.price) * (1 + 10 / 100)) ∧
    analyzeCheapRelative 10 c8Samples = [⟨0, 60, 1/10⟩, ⟨180, 240, 11/100⟩] ∧
    (groupConsecutiveHours (analyzeCheapRelative 10 c8Samples)).map rangeKey =
      [(0, 60, 1), (180, 240, 1)] := by
  refine ⟨by simp [c2Samples], ?_, ?_, ?_⟩
  · exact (relativeThresholdCheapSet c8Samples 10 (by simp [c8Samples])).1 _
  · unfold analyzeCheapRelative minPrice
    norm_num [c8Samples, List.filter, min_def]
  · have hfil : analyzeCheapRelative 10 c8Samples =
        [⟨0, 60, 1/10⟩, ⟨180, 240, 11/100⟩] := by
      unfold analyzeCheapRelative minPrice
      norm_num [c8Samples, List.filter, min_def]
    rw [hfil]
    decide

/-! ### C9 -/

/-- C9 evaluated at the failing input: a single cheap sample priced
0.1234567891 is emitted by the coordinators' `_group_consecutive_hours`
with `min_price`, `max_price` and `avg_price` equal to the raw
ten-decimal price, which is not equal to its 6-decimal rounding. -/
theorem rangeStatsNotRounded :
    groupConsecutiveHours [⟨0, 60, 1234567891/10000000000⟩] =
      [{ start := 0, stop := 60, price := 1234567891/10000000000,
         min_price := 1234567891/10000000000, max_price := 1234567891/10000000000,
         avg_price := 1234567891/10000000000, hour_count := 1 }] ∧
    pyRound (1234567891/10000000000) PRICE_DECIMAL_PRECISION ≠
      (1234567891/10000000000 : ℚ) := by
  constructor
  · rfl
  · norm_num [pyRound, roundHalfEven, PRICE_DECIMAL_PRECISION]

/-! ## Dynamic value model

For claim C10 the analyzers are embedded over a model of Python's dynamic
values, so that arbitrary malformed coordinator data (missing keys,
non-dict day entries, non-list `hourly_prices`, unparsable timestamps,
non-numeric prices) can be quantified over. `ptime` models `datetime`
objects; `datetime.fromisoformat` / `pd.to_datetime` are caller-supplied
partial functions (`none` models the library raising). -/

/-- A Python value. -/
inductive PVal where
  | pnone
  | pbool (b : Bool)
  | pnum (q : ℚ)
  | pstr (s : String)
  | ptime (t : ℤ)
  | plist (xs : List PVal)
  | pdict (kvs : List (String × PVal))

/-- Python truthiness (`if not x`). -/
def PVal.truthy : PVal → Bool
  | .pnone => false
  | .pbool b => b
  | .pnum q => decide (q ≠ 0)
  | .pstr s => decide (s ≠ "")
  | .ptime _ => true
  | .plist xs => !xs.isEmpty
  | .pdict kvs => !kvs.isEmpty

/-- First-match key lookup in a dict's entry list. -/
def lookupKey : List (String × PVal) → String → Option PVal
  | [], _ => none
  | (k, v) :: rest, key => if k = key then some v else lookupKey rest key

/-- Python `x.get(key, default)`: `AttributeError` unless `x` is a dict. -/
def PVal.get : PVal → String → PVal → Except PErr PVal
  | .pdict kvs, key, dflt => .ok ((lookupKey kvs key).getD dflt)
  | _, _, _ => .error .attributeError

/-- Python `isinstance(int, float)` numeric view (`bool` is an `int`). -/
def asNum : PVal → Option ℚ
  | .pnum q => some q
  | .pbool b => some (if b then 1 else 0)
  | _ => none

/-- Python subscription `x[k]`: dict lookup (`KeyError` when absent),
list/str indexing with negative-index wrap-around (`TypeError` for
non-integer subscripts). -/
def getItemV : PVal → PVal → Except PErr PVal
  | .pdict kvs, .pstr k =>
    match lookupKey kvs k with
    | some w => .ok w
    | none => .error .keyError
  | .pdict _, _ => .error .keyError
  | .plist xs, i =>
    match asNum i with
    | some q =>
      if q.den = 1 then
        let j := if q.num < 0 then q.num + xs.length else q.num
        if 0 ≤ j ∧ j.toNat < xs.length then .ok (xs.getD j.toNat .pnone)
        else .error .indexError
      else .error .typeError
    | none => .error .typeError
  | .pstr s, i =>
    match asNum i with
    | some q =>
      if q.den = 1 then
        let j := if q.num < 0 then q.num + s.length else q.num
        if 0 ≤ j ∧ j.toNat < s.length then
          .ok (.pstr (String.mk [s.toList.getD j.toNat ' ']))
        else .error .indexError
      else .error .typeError
    | none => .error .typeError
  | _, _ => .error .typeError

/-- Python iteration `for x in v`: lists yield elements, strings yield
one-character strings, dicts yield their keys; other values raise. -/
def PVal.iter : PVal → Except PErr (List PVal)
  | .plist xs => .ok xs
  | .pstr s => .ok (s.toList.map (fun c => .pstr (String.mk [c])))
  | .pdict kvs => .ok (kvs.map (fun kv => .pstr kv.1))
  | _ => .error .typeError

/-- One element of `all_prices` as collected by `_analyze_cheap_prices`
(the values are still arbitrary Python values at this point). -/
structure PriceItem where
  start_time : PVal
  end_time : PVal
  price : PVal
  date : PVal

/-- Inner body of the `for price_entry in hourly_prices` loop
(`cheap_hours_coordinator.py` lines 302-312 /
`cheap_price_coordinator.py` lines 188-198): skip entries whose
`actual_price` is `None`, read `start_time` / `end_time` by subscription
(`KeyError` propagates). -/
def collectEntry (ddate : PVal) (pe : PVal) : Except PErr (Option PriceItem) :=
  match pe.get "actual_price" .pnone with
  | .error e => .error e
  | .ok ap =>
    match ap with
    | .pnone => .ok none
    | _ =>
      match getItemV pe (.pstr "start_time") with
      | .error e => .error e
      | .ok st =>
        match getItemV pe (.pstr "end_time") with
        | .error e => .error e
        | .ok en => .ok (some { start_time := st, end_time := en, price := ap, date := ddate })

/-- The `for price_entry in hourly_prices` loop. -/
def collectEntries (ddate : PVal) : List PVal → Except PErr (List PriceItem)
  | [] => .ok []
  | pe :: rest =>
    match collectEntry ddate pe with
    | .error e => .error e
    | .ok r =>
      match collectEntries ddate rest with
      | .error e => .error e
      | .ok rs =>
        match r with
        | some it => .ok (it :: rs)
        | none => .ok rs

/-- Per-day collection: non-dict day entries are skipped; when
`checkAvail` is set (`cheap_hours_coordinator.py` lines 296-299) days
without truthy `data_available` are skipped. -/
def collectDay (checkAvail : Bool) (day : PVal) : Except PErr (List PriceItem) :=
  match day with
  | .pdict kvs =>
    if checkAvail && !((lookupKey kvs "data_available").getD (.pbool false)).truthy then
      .ok []
    else
      match ((lookupKey kvs "hourly_prices").getD (.plist [])).iter with
      | .error e => .error e
      | .ok pes => collectEntries ((lookupKey kvs "date").getD .pnone) pes
  | _ => .ok []

/-- The `for data_key in main_data` loop over day keys. -/
def collectKeys (checkAvail : Bool) (v : PVal) : List PVal → Except PErr (List PriceItem)
  | [] => .ok []
  | k :: rest =>
    match getItemV v k with
    | .error e => .error e
    | .ok day =>
      match collectDay checkAvail day with
      | .error e => .error e
      | .ok items =>
        match collectKeys checkAvail v rest with
        | .error e => .error e
        | .ok more => .ok (items ++ more)

/-- The whole `all_prices` collection pass of `_analyze_cheap_prices`. -/
def collectAll (checkAvail : Bool) (v : PVal) : Except PErr (List PriceItem) :=
  match v.iter with
  | .error e => .error e
  | .ok keys => collectKeys checkAvail v keys

/-- Per-item parse pass of the cheap-hours coordinator
(`cheap_hours_coordinator.py` lines 318-331): `datetime.fromisoformat`
(a caller-supplied partial function on strings; any other value raises
`TypeError`) is wrapped in a per-item `try` whose failure skips the
item. -/
def parseItemsHC (parse : String → Option ℤ) (items : List PriceItem) :
    List (PriceItem × ℤ) :=
  items.filterMap (fun it =>
    match it.start_time with
    | .pstr s => (parse s).map (fun t => (it, t))
    | _ => none)

/-- Column-wise `pd.to_datetime` of the cheap-price coordinator
(`cheap_price_coordinator.py` line 206): the conversion (a
caller-supplied partial function on arbitrary values) raises on the first
unconvertible `start_time`. -/
def parseItemsCP (parseV : PVal → Option ℤ) : List PriceItem → Except PErr (List (PriceItem × ℤ))
  | [] => .ok []
  | it :: rest =>
    match parseV it.start_time with
    | none => .error .valueError
    | some t =>
      match parseItemsCP parseV rest with
      | .error e => .error e
      | .ok rs => .ok ((it, t) :: rs)

/-- Stable ascending sort by parsed start time (`price_list.sort` /
`df.sort_values`, both stable), modelled by insertion sort. -/
def sortByTime (l : List (PriceItem × ℤ)) : List (PriceItem × ℤ) :=
  l.insertionSort (fun a b => a.2 ≤ b.2)

/-- Future filter over parsed items (same comparison as `futurePrices`,
against the raw `now`). -/
def futureItems (now : ℤ) (l : List (PriceItem × ℤ)) : List (PriceItem × ℤ) :=
  l.filter (fun p => decide (p.2 ≥ now))

/-- Cheap filter of the cheap-hours coordinator
(`cheap_hours_coordinator.py` lines 366-375): keep items with an
`isinstance(price, (int, float))` price at most `base_price` or at most
`base_price * (1 + threshold/100)`; the numeric value is paired for the
grouping stage. -/
def cheapItemsHC (bp th : ℚ) (l : List (PriceItem × ℤ)) : List ((PriceItem × ℤ) × ℚ) :=
  l.filterMap (fun p =>
    match asNum p.1.price with
    | some q =>
      if q ≤ bp ∨ q ≤ bp * (1 + th / 100) then some (p, q) else none
    | none => none)

/-- `df["price"].min()` over a dynamic column: `TypeError` on any
non-numeric value, otherwise the minimum. -/
def colMinAux (q : ℚ) : List PVal → Except PErr ℚ
  | [] => .ok q
  | w :: ws =>
    match asNum w with
    | none => .error .typeError
    | some q2 => colMinAux (min q q2) ws

/-- `df["price"].min()`; the empty case is unreachable (the analyzer
returns earlier when `df.empty`). -/
def colMin : List PVal → Except PErr ℚ
  | [] => .error .typeError
  | w :: ws =>
    match asNum w with
    | none => .error .typeError
    | some q => colMinAux q ws

/-- Cheap filter of the cheap-price coordinator
(`cheap_price_coordinator.py` line 230): `df[df["price"] <= max_cheap]`.
Once `colMin` succeeded every price is numeric. -/
def cheapItemsCP (maxCheap : ℚ) (l : List (PriceItem × ℤ)) : List ((PriceItem × ℤ) × ℚ) :=
  l.filterMap (fun p =>
    (asNum p.1.price).bind (fun q => if q ≤ maxCheap then some (p, q) else none))

/-- The in-progress `current_range` of the dynamic grouping pass:
`start_time` / `end_time` hold the raw values taken from the entries. -/
structure DynAcc where
  start_time : PVal
  end_time : PVal
  price : ℚ
  min_price : ℚ
  max_price : ℚ
  avg_price : ℚ
  hour_count : ℕ
  prices : List ℚ

/-- Start a new dynamic `current_range`. -/
def newDyn (x : PriceItem × ℤ) (q : ℚ) : DynAcc :=
  { start_time := x.1.start_time, end_time := x.1.end_time, price := q, min_price := q,
    max_price := q, avg_price := q, hour_count := 1, prices := [q] }

/-- Extend the dynamic `current_range` with a consecutive item. -/
def extendDyn (r : DynAcc) (x : PriceItem × ℤ) (q : ℚ) : DynAcc :=
  let prices := r.prices ++ [q]
  { r with
    end_time := x.1.end_time
    hour_count := r.hour_count + 1
    prices := prices
    min_price := min r.min_price q
    max_price := max r.max_price q
    avg_price := prices.sum / (prices.length : ℚ) }

/-- Emit a dynamic range as the dictionary the coordinators build
(`prices` popped). -/
def emitDyn (r : DynAcc) : List (String × PVal) :=
  [("start_time", r.start_time), ("end_time", r.end_time), ("price", .pnum r.price),
   ("min_price", .pnum r.min_price), ("max_price", .pnum r.max_price),
   ("avg_price", .pnum r.avg_price), ("hour_count", .pnum r.hour_count)]

/-- Dynamic `_group_consecutive_hours` of the cheap-hours coordinator:
`datetime.fromisoformat(current_range["end_time"])` runs inside a
per-item `try`; parse failure emits the current range and starts a new
one (`cheap_hours_coordinator.py` lines 479-530). -/
def groupLoopDynHC (parse : String → Option ℤ) :
    Option DynAcc → List ((PriceItem × ℤ) × ℚ) → List (List (String × PVal))
  | none, [] => []
  | some r, [] => [emitDyn r]
  | none, (x, q) :: rest => groupLoopDynHC parse (some (newDyn x q)) rest
  | some r, (x, q) :: rest =>
    match r.end_time with
    | .pstr s =>
      match parse s with
      | some endT =>
        if x.2 = endT then groupLoopDynHC parse (some (extendDyn r x q)) rest
        else emitDyn r :: groupLoopDynHC parse (some (newDyn x q)) rest
      | none => emitDyn r :: groupLoopDynHC parse (some (newDyn x q)) rest
    | _ => emitDyn r :: groupLoopDynHC parse (some (newDyn x q)) rest

/-- Dynamic `_group_consecutive_hours` of the cheap-price coordinator:
`pd.to_datetime(current_range["end_time"])` is not protected, so a
conversion failure aborts the grouping
(`cheap_price_coordinator.py` lines 287-339). -/
def groupLoopDynCP (parseV : PVal → Option ℤ) :
    Option DynAcc → List ((PriceItem × ℤ) × ℚ) → Except PErr (List (List (String × PVal)))
  | none, [] => .ok []
  | some r, [] => .ok [emitDyn r]
  | none, (x, q) :: rest => groupLoopDynCP parseV (some (newDyn x q)) rest
  | some r, (x, q) :: rest =>
    match parseV r.end_time with
    | none => .error .valueError
    | some endT =>
      if x.2 = endT then groupLoopDynCP parseV (some (extendDyn r x q)) rest
      else
        match groupLoopDynCP parseV (some (newDyn x q)) rest with
        | .error e => .error e
        | .ok rs => .ok (emitDyn r :: rs)

/-- The `{"cheap_ranges": [], "analysis_info": {}}` fallback. -/
def emptyAnalysis : PVal := .pdict [("cheap_ranges", .plist []), ("analysis_info", .pdict [])]

/-- Body of `CheapHoursDataUpdateCoordinator._analyze_cheap_prices`
(`cheap_hours_coordinator.py` lines 288-449), i.e. the contents of its
outer `try`; the runtime base price and threshold are numeric
configuration inputs. Failure models the raised exception reaching the
outer `except`. -/
def analyzeBodyHC (parse : String → Option ℤ) (bp th : ℚ) (now : ℤ) (v : PVal) :
    Except PErr PVal :=
  match collectAll true v with
  | .error e => .error e
  | .ok all =>
    if all.isEmpty then .ok emptyAnalysis
    else
      let future := futureItems now (sortByTime (parseItemsHC parse all))
      if future.isEmpty then .ok emptyAnalysis
      else
        let max_cheap_price_by_threshold := bp * (1 + th / 100)
        let cheap := cheapItemsHC bp th future
        if cheap.isEmpty then
          .ok (.pdict [("cheap_ranges", .plist []),
            ("analysis_info", .pdict [("base_price", .pnum bp),
              ("threshold_percent", .pnum th),
              ("max_cheap_by_threshold", .pnum max_cheap_price_by_threshold)])])
        else
          let ranges := (groupLoopDynHC parse none cheap).map PVal.pdict
          .ok (.pdict [("cheap_ranges", .plist ranges),
            ("analysis_info", .pdict
              [("base_price", .pnum (pyRound bp PRICE_DECIMAL_PRECISION)),
               ("max_cheap_by_threshold",
                 .pnum (pyRound max_cheap_price_by_threshold PRICE_DECIMAL_PRECISION)),
               ("threshold_percent", .pnum th),
               ("total_cheap_hours", .pnum ranges.length),
               ("analysis_period_hours", .pnum future.length)])])

/-- `CheapHoursDataUpdateCoordinator._analyze_cheap_prices`: the
`if not main_data` guard, then the `try` body with the broad `except`
returning the empty result. -/
def analyzeCheapPricesHC (parse : String → Option ℤ) (bp th : ℚ) (now : ℤ) (v : PVal) :
    PVal :=
  if !v.truthy then emptyAnalysis
  else
    match analyzeBodyHC parse bp th now v with
    | .ok out => out
    | .error _ => emptyAnalysis

/-- Body of `CheapPriceDataUpdateCoordinator._analyze_cheap_prices`
(`cheap_price_coordinator.py` lines 179-277), i.e. the contents of its
outer `try`: no `data_available` filter, column-wise timestamp
conversion, observed-minimum threshold. -/
def analyzeBodyCP (parseV : PVal → Option ℤ) (th : ℚ) (now : ℤ) (v : PVal) :
    Except PErr PVal :=
  match collectAll false v with
  | .error e => .error e
  | .ok all =>
    if all.isEmpty then .ok emptyAnalysis
    else
      match parseItemsCP parseV all with
      | .error e => .error e
      | .ok rows =>
        let future := futureItems now (sortByTime rows)
        if future.isEmpty then .ok emptyAnalysis
        else
          match colMin (future.map (fun r => r.1.price)) with
          | .error e => .error e
          | .ok min_price =>
            let max_cheap_price := min_price * (1 + th / 100)
            let cheap := cheapItemsCP max_cheap_price future
            if cheap.isEmpty then
              .ok (.pdict [("cheap_ranges", .plist []),
                ("analysis_info", .pdict [("min_price", .pnum min_price),
                  ("threshold_percent", .pnum th)])])
            else
              match groupLoopDynCP parseV none cheap with
              | .error e => .error e
              | .ok rangeDicts =>
                let ranges := rangeDicts.map PVal.pdict
                .ok (.pdict [("cheap_ranges", .plist ranges),
                  ("analysis_info", .pdict
                    [("min_price", .pnum (pyRound min_price PRICE_DECIMAL_PRECISION)),
                     ("max_cheap_price",
                       .pnum (pyRound max_cheap_price PRICE_DECIMAL_PRECISION)),
                     ("threshold_percent", .pnum th),
                     ("total_cheap_hours", .pnum ranges.length),
                     ("analysis_period_hours", .pnum future.length)])])

/-- `CheapPriceDataUpdateCoordinator._analyze_cheap_prices`: guard, `try`
body, broad `except` returning the empty result. -/
def analyzeCheapPricesCP (parseV : PVal → Option ℤ) (th : ℚ) (now : ℤ) (v : PVal) :
    PVal :=
  if !v.truthy then emptyAnalysis
  else
    match analyzeBodyCP parseV th now v with
    | .ok out => out
    | .error _ => emptyAnalysis

/-- Every successful body run of the cheap-hours analyzer returns a dict
with exactly a `cheap_ranges` list and an `analysis_info` dict. -/
theorem analyzeBodyHC_shape (parse : String → Option ℤ) (bp th : ℚ) (now : ℤ) (v : PVal)
    (out : PVal) (h : analyzeBodyHC parse bp th now v = .ok out) :
    ∃ rs ai, out = .pdict [("cheap_ranges", .plist rs), ("analysis_info", .pdict ai)] := by
  unfold analyzeBodyHC at h
  cases hc : collectAll true v with
  | error e => rw [hc] at h; cases h
  | ok all =>
    rw [hc] at h
    dsimp only at h
    split at h
    · cases h; exact ⟨[], [], rfl⟩
    · split at h
      · cases h; exact ⟨[], [], rfl⟩
      · split at h
        · cases h; exact ⟨[], _, rfl⟩
        · cases h; exact ⟨_, _, rfl⟩

/-- Every successful body run of the cheap-price analyzer returns a dict
with exactly a `cheap_ranges` list and an `analysis_info` dict. -/
theorem analyzeBodyCP_shape (parseV : PVal → Option ℤ) (th : ℚ) (now : ℤ) (v : PVal)
    (out : PVal) (h : analyzeBodyCP parseV th now v = .ok out) :
    ∃ rs ai, out = .pdict [("cheap_ranges", .plist rs), ("analysis_info", .pdict ai)] := by
  unfold analyzeBodyCP at h
  cases hc : collectAll false v with
  | error e => rw [hc] at h; cases h
  | ok all =>
    rw [hc] at h
    dsimp only at h
    split at h
    · cases h; exact ⟨[], [], rfl⟩
    · cases hp : parseItemsCP parseV all with
      | error e => rw [hp] at h; cases h
      | ok rows =>
        rw [hp] at h
        dsimp only at h
        split at h
        · cases h; exact ⟨[], [], rfl⟩
        · cases hm : colMin ((futureItems now (sortByTime rows)).map fun r => r.1.price) with
          | error e => rw [hm] at h; cases h
          | ok minP =>
            rw [hm] at h
            dsimp only at h
            split at h
            · cases h; exact ⟨[], _, rfl⟩
            · cases hg : groupLoopDynCP parseV none
                  (cheapItemsCP (minP * (1 + th / 100)) (futureItems now (sortByTime rows))) with
              | error e => rw [hg] at h; cases h
              | ok rds =>
                rw [hg] at h
                cases h
                exact ⟨_, _, rfl⟩

/-! ### C10 -/

/-- C10: over arbitrary coordinator data — missing day keys, non-dict day
entries, missing or malformed `hourly_prices`, unparsable timestamps,
non-numeric prices — both `_analyze_cheap_prices` implementations always
return a dictionary holding a `cheap_ranges` list and an `analysis_info`
dictionary (every raised exception is absorbed by the guard, the
per-item handlers or the outer broad `except`), and when the collection
yields no valid price, or no future sample remains after the now-filter,
the result is empty `cheap_ranges` with an empty `analysis_info`. -/
theorem analyzeCheapPricesTotal (parse : String → Option ℤ) (parseV : PVal → Option ℤ)
    (bp th : ℚ) (now : ℤ) (v : PVal) :
    (∃ rs ai, analyzeCheapPricesHC parse bp th now v =
        .pdict [("cheap_ranges", .plist rs), ("analysis_info", .pdict ai)]) ∧
    (∃ rs ai, analyzeCheapPricesCP parseV th now v =
        .pdict [("cheap_ranges", .plist rs), ("analysis_info", .pdict ai)]) ∧
    (collectAll true v = .ok [] → analyzeCheapPricesHC parse bp th now v = emptyAnalysis) ∧
    (∀ all, collectAll true v = .ok all →
      futureItems now (sortByTime (parseItemsHC parse all)) = [] →
      analyzeCheapPricesHC parse bp th now v = emptyAnalysis) ∧
    (collectAll false v = .ok [] → analyzeCheapPricesCP parseV th now v = emptyAnalysis) ∧
    (∀ all rows, collectAll false v = .ok all → parseItemsCP parseV all = .ok rows →
      futureItems now (sortByTime rows) = [] →
      analyzeCheapPricesCP parseV th now v = emptyAnalysis) := by
  refine ⟨?_, ?_, ?_, ?_, ?_, ?_⟩
  · unfold analyzeCheapPricesHC
    cases htr : v.truthy
    · exact ⟨[], [], by simp [htr, emptyAnalysis]⟩
    · simp only [htr, Bool.not_true, Bool.false_eq_true, if_false]
      cases hb : analyzeBodyHC parse bp th now v with
      | ok out => exact analyzeBodyHC_shape parse bp th now v out hb
      | error e => exact ⟨[], [], rfl⟩
  · unfold analyzeCheapPricesCP
    cases htr : v.truthy
    · exact ⟨[], [], by simp [htr, emptyAnalysis]⟩
    · simp only [htr, Bool.not_true, Bool.false_eq_true, if_false]
      cases hb : analyzeBodyCP parseV th now v with
      | ok out => exact analyzeBodyCP_shape parseV th now v out hb
      | error e => exact ⟨[], [], rfl⟩
  · intro h
    have hb : analyzeBodyHC parse bp th now v = .ok emptyAnalysis := by
      unfold analyzeBodyHC
      rw [h]
      rfl
    unfold analyzeCheapPricesHC
    rw [hb]
    cases htr : v.truthy <;> simp [htr]
  · intro all h1 h2
    have hb : analyzeBodyHC parse bp th now v = .ok emptyAnalysis := by
      unfold analyzeBodyHC
      rw [h1]
      dsimp only
      cases hae : all.isEmpty <;> simp [hae, h2]
    unfold analyzeCheapPricesHC
    rw [hb]
    cases htr : v.truthy <;> simp [htr]
  · intro h
    have hb : analyzeBodyCP parseV th now v = .ok emptyAnalysis := by
      unfold analyzeBodyCP
      rw [h]
      rfl
    unfold analyzeCheapPricesCP
    rw [hb]
    cases htr : v.truthy <;> simp [htr]
  · intro all rows h1 h2 h3
    have hb : analyzeBodyCP parseV th now v = .ok emptyAnalysis := by
      unfold analyzeBodyCP
      rw [h1]
      dsimp only
      cases hae : all.isEmpty
      · simp only [hae, Bool.false_eq_true, if_false]
        rw [h2]
        dsimp only
        simp [h3]
      · simp [hae]
    unfold analyzeCheapPricesCP
    rw [hb]
    cases htr : v.truthy <;> simp [htr]

/-- A coordinator data dict with one available day and no hourly prices. -/
def vEmptyDay : PVal :=
  .pdict [("today", .pdict [("data_available", .pbool true), ("hourly_prices", .plist [])])]

/-- An hourly entry with a valid price and string timestamps. -/
def peOne : PVal :=
  .pdict [("actual_price", .pnum 1), ("start_time", .pstr "s"), ("end_time", .pstr "e")]

/-- A coordinator data dict with one available day and one hourly entry. -/
def vOneEntry : PVal :=
  .pdict [("today", .pdict [("data_available", .pbool true), ("hourly_prices", .plist [peOne])])]

/-- The collected item of `vOneEntry`. -/
def itOne : PriceItem :=
  { start_time := .pstr "s", end_time := .pstr "e", price := .pnum 1, date := .pnone }

/-- Witness for C10: both analyzers return the empty result on a day with
no valid prices, and on data whose only sample (parsed at time 0) lies
before `now = 1`. -/
theorem analyzeCheapPricesTotal_witness :
    collectAll true vEmptyDay = .ok [] ∧
    analyzeCheapPricesHC (fun _ => some 0) 1 10 1 vEmptyDay = emptyAnalysis ∧
    analyzeCheapPricesHC (fun _ => some 0) 1 10 1 vOneEntry = emptyAnalysis ∧
    collectAll false vEmptyDay = .ok [] ∧
    analyzeCheapPricesCP (fun _ => some 0) 10 1 vEmptyDay = emptyAnalysis ∧
    analyzeCheapPricesCP (fun _ => some 0) 10 1 vOneEntry = emptyAnalysis :=
  ⟨rfl,
   (analyzeCheapPricesTotal (fun _ => some 0) (fun _ => some 0) 1 10 1 vEmptyDay).2.2.1 rfl,
   (analyzeCheapPricesTotal (fun _ => some 0) (fun _ => some 0) 1 10 1 vOneEntry).2.2.2.1
     [itOne] rfl rfl,
   rfl,
   (analyzeCheapPricesTotal (fun _ => some 0) (fun _ => some 0) 1 10 1
     vEmptyDay).2.2.2.2.1 rfl,
   (analyzeCheapPricesTotal (fun _ => some 0) (fun _ => some 0) 1 10 1
     vOneEntry).2.2.2.2.2 [itOne] [(itOne, 0)] rfl rfl rfl⟩
